import Mathlib

/-! Shallow embedding of the ace-mvp backend (Express + Mongoose) in Lean 4.
JavaScript strings are modelled as `List Char`; the JS string primitives the
routes use (trim, toLowerCase, toUpperCase, split(' '), truthiness) are
embedded structurally below so that everything evaluates in the kernel. -/

/-- ASCII whitespace recognised by the JS `trim` model. -/
def isJsWhitespace (c : Char) : Bool :=
  c = ' ' || c = '\t' || c = '\n' || c = '\r'

/-- Model of JavaScript `String.prototype.trim`: strip whitespace at both ends. -/
def jsTrim (s : List Char) : List Char :=
  ((s.dropWhile isJsWhitespace).reverse.dropWhile isJsWhitespace).reverse

/-- Model of JavaScript `toLowerCase` (ASCII range, which is all the code compares). -/
def jsToLower (s : List Char) : List Char := s.map Char.toLower

/-- Model of JavaScript `toUpperCase` (ASCII range). -/
def jsToUpper (s : List Char) : List Char := s.map Char.toUpper

/-- Model of JavaScript `str.split(' ')`: split at every single space, keeping
empty pieces (so `"a  b"` yields `["a", "", "b"]` and `""` yields `[""]`). -/
def jsSplitSpace : List Char → List (List Char)
  | [] => [[]]
  | c :: rest =>
    if c = ' ' then [] :: jsSplitSpace rest
    else
      match jsSplitSpace rest with
      | [] => [[c]]
      | piece :: pieces => (c :: piece) :: pieces

/-- JS truthiness of an optional string: `undefined` and `""` are falsy. -/
def jsTruthy : Option (List Char) → Bool
  | none => false
  | some s => !s.isEmpty

/-- Model of the JS `x || d` default idiom on optional strings:
`undefined` and the empty string fall back to the default. -/
def jsOrString (v : Option (List Char)) (d : List Char) : List Char :=
  match v with
  | some s => if s.isEmpty then d else s
  | none => d

/-- `needle` occurs as a contiguous substring of the second argument. -/
def containsSub (needle : List Char) : List Char → Bool
  | [] => needle.isEmpty
  | c :: rest => needle.isPrefixOf (c :: rest) || containsSub needle rest

/-- The characters escaped by the feed handler's
`q.trim().replace(/[.*+?^$\x7b\x7d()|[\]\\]/g, ...)` (routes/posts.ts line 70);
these are exactly the characters with special meaning in a JS/Mongo regex
outside a character class. -/
def isRegexSpecial (c : Char) : Bool :=
  c = '.' || c = '*' || c = '+' || c = '?' || c = '^' || c = '$' ||
  c = '\x7b' || c = '\x7d' || c = '(' || c = ')' || c = '|' ||
  c = '[' || c = ']' || c = '\\'

/-- Model of `q.trim().replace(/[.*+?^$\x7b\x7d()|[\]\\]/g, '\\$&')`
(routes/posts.ts line 70): every special character is replaced by a backslash
followed by itself. -/
def escapeRegexChars : List Char → List Char
  | [] => []
  | c :: rest =>
    if isRegexSpecial c then '\\' :: c :: escapeRegexChars rest
    else c :: escapeRegexChars rest

mutual

/-- Interpretation of a regex pattern that consists only of literal atoms: a
backslash-escaped character denotes that character literally, and an ordinary
non-special character denotes itself.  Returns `none` when the pattern
contains an unescaped special character (which the regex engine would
interpret as pattern syntax, or reject as malformed, e.g. a lone `(` or a
dangling backslash) — so `some` means the pattern is a pure literal. -/
def literalOfPattern : List Char → Option (List Char)
  | [] => some []
  | c :: rest =>
    if c = '\\' then literalOfEscapeTail rest
    else if isRegexSpecial c then none
    else (literalOfPattern rest).map (fun l => c :: l)

/-- Continuation of `literalOfPattern` after a backslash: a dangling final
backslash is malformed; otherwise the next character is taken literally. -/
def literalOfEscapeTail : List Char → Option (List Char)
  | [] => none
  | d :: rest => (literalOfPattern rest).map (fun l => d :: l)

end

/-- Model of evaluating `\x7b $regex: pat, $options: 'i' \x7d` against a
subject string: when the pattern is a pure literal the match is a
case-insensitive substring test; when the pattern contains unescaped special
characters the evaluation is not a literal substring test (the engine either
errors on a malformed pattern or applies pattern semantics), which we model
as `none`. -/
def regexTestCI (pat subject : List Char) : Option Bool :=
  (literalOfPattern pat).map
    (fun lits => containsSub (jsToLower lits) (jsToLower subject))

/-! Data model: the Mongoose schemas (backend/src/models/Post.ts, User.ts) and
the shaped HTTP response records of the routes. -/

/-- Post type enum of the Post schema: `enum: ['NEED', 'HAVE']`. -/
inductive PostType where
  | NEED
  | HAVE
deriving DecidableEq, Repr

/-- The string stored for a `PostType` value. -/
def PostType.str : PostType → List Char
  | .NEED => "NEED".data
  | .HAVE => "HAVE".data

/-- A document of the `posts` collection (models/Post.ts): `_id`, `type`,
`content`, `userId` (a plain string in this schema), optional `imageUrl`, and
the `createdAt` timestamp added by `timestamps: true`. -/
structure StoredPost where
  _id : List Char
  type : PostType
  content : List Char
  userId : List Char
  imageUrl : Option (List Char)
  createdAt : Nat
deriving DecidableEq, Repr

/-- A document of the `users` collection (models/User.ts): `_id`, `name`,
lowercase `email`, and the bcrypt `password` hash at rest. -/
structure StoredUser where
  _id : List Char
  name : List Char
  email : List Char
  password : List Char
deriving DecidableEq, Repr

/-- A JSON error/success envelope together with the HTTP status it is sent
with: `res.status(s).json(\x7b success, message \x7d)`. -/
structure ApiResponse where
  status : Nat
  success : Bool
  message : String
deriving DecidableEq, Repr

/-- A shaped feed entry as produced by the GET /api/posts handler
(routes/posts.ts lines 107-115 and 124-132). -/
structure FormattedPost where
  id : List Char
  type : PostType
  content : List Char
  userId : List Char
  userName : List Char
  createdAt : Nat
  imageUrl : Option (List Char)
deriving DecidableEq, Repr

/-! Feed query pipeline: GET /api/posts (routes/posts.ts lines 51-155). -/

/-- The raw query parameters `\x7b userId, q, type \x7d` of GET /api/posts
(`none` models an absent parameter). -/
structure FeedQuery where
  userId : Option (List Char)
  q : Option (List Char)
  type : Option (List Char)
deriving Repr

/-- The Mongo filter document the handler builds (routes/posts.ts lines
56-72): an optional exact-match `userId` constraint, an optional exact-match
`type` constraint, and an optional case-insensitive `$regex` constraint on
`content`. -/
structure MongoQuery where
  userId : Option (List Char)
  type : Option (List Char)
  contentRegexCI : Option (List Char)
deriving Repr

/-- Query composition of routes/posts.ts lines 56-72: `userId` is added when
truthy; `type` is added (uppercased) when truthy and its uppercasing is NEED
or HAVE; the free-text `q` is added when its trim is nonempty, as the
regex-escaped trimmed text. -/
def buildFeedQuery (fq : FeedQuery) : MongoQuery :=
  let q0 : MongoQuery := ⟨none, none, none⟩
  let q1 :=
    match fq.userId with
    | some u => if !u.isEmpty then { q0 with userId := some u } else q0
    | none => q0
  let q2 :=
    match fq.type with
    | some t =>
      if !t.isEmpty && (decide (jsToUpper t = "NEED".data) || decide (jsToUpper t = "HAVE".data)) then
        { q1 with type := some (jsToUpper t) }
      else q1
    | none => q1
  match fq.q with
  | some qs =>
    if !(jsTrim qs).isEmpty then
      { q2 with contentRegexCI := some (escapeRegexChars (jsTrim qs)) }
    else q2
  | none => q2

/-- Mongo evaluation of the built filter against one stored post.  The
`$regex`/`$options: 'i'` constraint is evaluated by `regexTestCI`; a pattern
that is not a pure literal yields `none`, which `getD false` maps to a
non-match (for the patterns the handler builds this case is proved
impossible below). -/
def mongoMatch (mq : MongoQuery) (p : StoredPost) : Bool :=
  (match mq.userId with
   | some u => decide (p.userId = u)
   | none => true) &&
  (match mq.type with
   | some t => decide (p.type.str = t)
   | none => true) &&
  (match mq.contentRegexCI with
   | some pat => (regexTestCI pat p.content).getD false
   | none => true)

/-- The sort key of `.sort(\x7b createdAt: -1 \x7d)`: newest first. -/
def createdAtDesc (a b : StoredPost) : Prop := b.createdAt ≤ a.createdAt

instance : DecidableRel createdAtDesc := fun a b => Nat.decLe b.createdAt a.createdAt

instance : IsTotal StoredPost createdAtDesc :=
  ⟨fun a b => (Nat.le_total b.createdAt a.createdAt).elim Or.inl Or.inr⟩

instance : IsTrans StoredPost createdAtDesc :=
  ⟨fun _ _ _ hab hbc => Nat.le_trans hbc hab⟩

/-- `Post.find(query).sort(\x7b createdAt: -1 \x7d)` (routes/posts.ts lines
75-76): the documents matching the filter, sorted by creation date, newest
first. -/
def findPosts (posts : List StoredPost) (mq : MongoQuery) : List StoredPost :=
  List.insertionSort createdAtDesc (posts.filter (mongoMatch mq))

/-! Hydration: GET /api/posts, routes/posts.ts lines 79-135. -/

/-- The ObjectId shape test of routes/posts.ts line 85:
`/^[0-9a-fA-F]\x7b24\x7d$/` — exactly 24 hexadecimal characters. -/
def isValidObjectId (s : List Char) : Bool :=
  decide (s.length = 24) &&
  s.all (fun c => c.isDigit || ('a' ≤ c && c ≤ 'f') || ('A' ≤ c && c ≤ 'F'))

/-- Lookup in the `userMap` association list built by the handler
(first entry with the given key). -/
def lookupName (m : List (List Char × List Char)) (k : List Char) : Option (List Char) :=
  (m.find? (fun e => decide (e.1 = k))).map (fun e => e.2)

/-- The ids sent to the batch `User.find(\x7b _id: \x7b $in: ... \x7d \x7d)`
(routes/posts.ts lines 80-88): the posts' userIds, keeping only well-formed
ObjectIds, deduplicated. -/
def batchUserIds (results : List StoredPost) : List (List Char) :=
  ((results.map (fun p => p.userId)).filter isValidObjectId).dedup

/-- The users returned by the batch
`User.find(\x7b _id: \x7b $in: uniqueUserIds \x7d \x7d)` of routes/posts.ts
lines 91-98: `userFetchFails` models the caught error around `User.find`,
after which the code continues with an empty user list. -/
def fetchedUsers (results : List StoredPost) (users : List StoredUser)
    (userFetchFails : Bool) : List StoredUser :=
  if userFetchFails then []
  else users.filter (fun u => decide (u._id ∈ batchUserIds results))

/-- The all-posts hydration path (routes/posts.ts lines 79-117): batch-fetch
the users for the valid ids, build the id→name map, and shape each post with
`userName: userMap.get(post.userId) || 'Unknown User'`. -/
def hydrateBatch (results : List StoredPost) (users : List StoredUser)
    (userFetchFails : Bool) : List FormattedPost :=
  results.map (fun p =>
    ⟨p._id, p.type, p.content, p.userId,
      jsOrString
        (lookupName
          ((fetchedUsers results users userFetchFails).map (fun u => (u._id, u.name)))
          p.userId)
        "Unknown User".data,
      p.createdAt, p.imageUrl⟩)

/-- GET /api/posts (routes/posts.ts lines 51-155): build the filter, fetch
sorted, then hydrate: the batch path when `userId` is not truthy, otherwise a
single `User.findById(userId)` lookup whose name (or 'Unknown User') is
attached to every post. -/
def getPostsHandler (posts : List StoredPost) (users : List StoredUser)
    (fq : FeedQuery) (userFetchFails : Bool) : List FormattedPost :=
  let results := findPosts posts (buildFeedQuery fq)
  if jsTruthy fq.userId then
    match fq.userId with
    | some uid =>
      let userName :=
        match users.find? (fun u => decide (u._id = uid)) with
        | some u => u.name
        | none => "Unknown User".data
      results.map (fun p =>
        ⟨p._id, p.type, p.content, p.userId, userName, p.createdAt, p.imageUrl⟩)
    | none => []
  else
    hydrateBatch results users userFetchFails

/-! Deletion: DELETE /api/posts/:id (routes/posts.ts lines 280-333). -/

/-- `Post.findById(id)`: the document with the given `_id`, if any. -/
def postFindById (posts : List StoredPost) (id : List Char) : Option StoredPost :=
  posts.find? (fun p => decide (p._id = id))

/-- Outcome of the delete handler: the response sent and the store afterwards. -/
structure DeleteResult where
  response : ApiResponse
  posts : List StoredPost
deriving DecidableEq, Repr

/-- DELETE /api/posts/:id handler (routes/posts.ts lines 284-312), after
authentication: 404 when `Post.findById` finds nothing; 403 (store untouched)
when the post's `userId` differs from the authenticated user's id; otherwise
`Post.findByIdAndDelete(id)` (removal of the document with that `_id`, which
is the collection's unique key) and 200. -/
def deletePostHandler (posts : List StoredPost) (id requestingUserId : List Char) :
    DeleteResult :=
  match postFindById posts id with
  | none => ⟨⟨404, false, "Post not found"⟩, posts⟩
  | some post =>
    if post.userId ≠ requestingUserId then
      ⟨⟨403, false, "You can only delete your own posts"⟩, posts⟩
    else
      ⟨⟨200, true, "Post deleted successfully"⟩,
        posts.filter (fun p => decide (p._id ≠ id))⟩

/-! Token service: jwt.sign / jwt.verify as used by routes/auth.ts and
middleware/auth.ts.  A token is modelled as its decoded shape: either a
well-formed signed envelope (claims, expiry, signature) or a blob the
library cannot decode.  The HMAC is modelled as an ideal MAC: the signature
carries exactly the signed data and the secret, so a signature check succeeds
precisely for a token produced with the same secret over the same payload. -/

/-- The claim set `\x7b userId, email \x7d` signed by generateToken
(routes/auth.ts line 42). -/
structure JwtClaims where
  userId : List Char
  email : List Char
deriving DecidableEq, Repr

/-- Ideal model of the HMAC-SHA256 signature over (secret, payload). -/
structure JwtSig where
  secret : List Char
  userId : List Char
  email : List Char
  exp : Nat
deriving DecidableEq, Repr

/-- A token string as the jsonwebtoken library decodes it. -/
inductive TokenBlob where
  | signed (claims : JwtClaims) (exp : Nat) (sig : JwtSig)
  | malformed (raw : List Char)
deriving DecidableEq, Repr

/-- Signing: the ideal MAC of the payload under the secret. -/
def macSign (secret : List Char) (claims : JwtClaims) (exp : Nat) : JwtSig :=
  ⟨secret, claims.userId, claims.email, exp⟩

/-- The three verification failures of the jsonwebtoken library relevant
here: `TokenExpiredError`, and `JsonWebTokenError` with reason invalid
signature or malformed token. -/
inductive JwtError where
  | expired
  | invalidSignature
  | malformed
deriving DecidableEq, Repr

/-- `instanceof jwt.JsonWebTokenError`: true for all three failures, because
in the jsonwebtoken library `TokenExpiredError` (and `NotBeforeError`) are
subclasses of `JsonWebTokenError`. -/
def JwtError.isJsonWebTokenError : JwtError → Bool := fun _ => true

/-- `instanceof jwt.TokenExpiredError`: only the expiry failure. -/
def JwtError.isTokenExpiredError : JwtError → Bool
  | .expired => true
  | _ => false

/-- `jwt.verify(token, secret)` (times in seconds): decode failure is
malformed; a signature that is not the MAC of the payload under `secret` is
an invalid signature; an `exp` at or before the clock is expired; otherwise
the claims are returned. -/
def jwtVerify (tok : TokenBlob) (secret : List Char) (nowSec : Nat) :
    Except JwtError JwtClaims :=
  match tok with
  | .malformed _ => .error .malformed
  | .signed claims exp sig =>
    if sig ≠ macSign secret claims exp then .error .invalidSignature
    else if exp ≤ nowSec then .error .expired
    else .ok claims

/-- `generateToken` (routes/auth.ts lines 35-46): throws when
`process.env.JWT_SECRET` is not set (or empty — JS falsiness), otherwise
`jwt.sign(\x7b userId, email \x7d, jwtSecret, \x7b expiresIn: '7d' \x7d)`,
i.e. expiry = issue time + 604800 seconds. -/
def generateToken (userId email : List Char) (jwtSecretEnv : Option (List Char))
    (nowSec : Nat) : Except String TokenBlob :=
  if !jsTruthy jwtSecretEnv then
    .error "JWT_SECRET environment variable is not set"
  else
    let secret := jwtSecretEnv.getD []
    .ok (.signed ⟨userId, email⟩ (nowSec + 604800)
      (macSign secret ⟨userId, email⟩ (nowSec + 604800)))

/-! Identity middleware of the standalone backend
(backend/src/middleware/auth.ts).  `tokenEnv` is the decoding of token
strings into their decoded shape (the base64/JSON coding of the jsonwebtoken
library, external to this repository). -/

/-- What the middleware did with the request: the error response it sent (or
`none` when it called `next()`), the identity it attached as `req.user`, and
whether `jwt.verify` was ever invoked. -/
structure AuthOutcome where
  response : Option ApiResponse
  reqUser : Option (List Char × List Char)
  verifyCalled : Bool
deriving DecidableEq, Repr

/-- Token extraction of middleware/auth.ts lines 20-29:
`authHeader && authHeader.split(' ')[1]` followed by `if (!token)` — the
scheme word itself is never inspected; the result is `none` exactly when the
header is absent/empty or has no nonempty second space-separated component. -/
def extractToken (authHeader : Option (List Char)) : Option (List Char) :=
  match authHeader with
  | none => none
  | some h =>
    if h.isEmpty then none
    else
      match (jsSplitSpace h).get? 1 with
      | none => none
      | some t => if t.isEmpty then none else some t

/-- `authenticateToken` (middleware/auth.ts lines 18-84): extract the token
(401 without verification when there is none), check the secret is
configured, `jwt.verify`, then re-resolve the subject via
`User.findById(decoded.userId)` (401 when the user no longer exists) and
attach `req.user`.  The catch block tests `instanceof jwt.JsonWebTokenError`
before `instanceof jwt.TokenExpiredError`. -/
def authenticateToken (tokenEnv : List Char → TokenBlob)
    (authHeader : Option (List Char)) (jwtSecretEnv : Option (List Char))
    (users : List StoredUser) (nowSec : Nat) : AuthOutcome :=
  match extractToken authHeader with
  | none => ⟨some ⟨401, false, "Access token required"⟩, none, false⟩
  | some tokStr =>
    if !jsTruthy jwtSecretEnv then
      ⟨some ⟨500, false, "Server configuration error"⟩, none, false⟩
    else
      match jwtVerify (tokenEnv tokStr) (jwtSecretEnv.getD []) nowSec with
      | .error e =>
        if e.isJsonWebTokenError then ⟨some ⟨401, false, "Invalid token"⟩, none, true⟩
        else if e.isTokenExpiredError then ⟨some ⟨401, false, "Token expired"⟩, none, true⟩
        else ⟨some ⟨500, false, "Authentication failed"⟩, none, true⟩
      | .ok claims =>
        match users.find? (fun u => decide (u._id = claims.userId)) with
        | none => ⟨some ⟨401, false, "User not found"⟩, none, true⟩
        | some u => ⟨none, some (u._id, u.email), true⟩

/-! Identity middleware of the serverless variant (api/_utils/auth.ts and its
sibling with `authenticateRequest`). -/

/-- `verifyToken(token)` of the serverless utils: `jwt.verify(token,
process.env.JWT_SECRET || 'your-default-secret')`, returning the decoded
claims or `null` on any error. -/
def verifyTokenServerless (tokenEnv : List Char → TokenBlob)
    (jwtSecretEnv : Option (List Char)) (token : List Char) (nowSec : Nat) :
    Option JwtClaims :=
  match jwtVerify (tokenEnv token) (jsOrString jwtSecretEnv "your-default-secret".data) nowSec with
  | .ok claims => some claims
  | .error _ => none

/-- Result of the serverless `authenticateRequest`: the boolean it returns,
the `req.user` it attached, and whether `jwt.verify` was invoked. -/
structure ServerlessAuthResult where
  ok : Bool
  reqUser : Option JwtClaims
  verifyCalled : Bool
deriving DecidableEq, Repr

/-- `authenticateRequest(req)` of the serverless variant: `false` when the
header is absent or does not start with `'Bearer '`; otherwise verify the
second space-separated component and, on success, attach `req.user` straight
from the decoded claims — no user-store lookup is performed. -/
def authenticateRequest (tokenEnv : List Char → TokenBlob)
    (authHeader : Option (List Char)) (jwtSecretEnv : Option (List Char))
    (nowSec : Nat) : ServerlessAuthResult :=
  match authHeader with
  | none => ⟨false, none, false⟩
  | some h =>
    if !("Bearer ".data.isPrefixOf h) then ⟨false, none, false⟩
    else
      let token := ((jsSplitSpace h).get? 1).getD []
      match verifyTokenServerless tokenEnv jwtSecretEnv token nowSec with
      | some claims => ⟨true, some claims, true⟩
      | none => ⟨false, none, true⟩

/-! Login: POST /api/login (routes/auth.ts lines 134-196). -/

/-- Outcome of the login handler: an error envelope, or the success payload
(user id, name, email and the issued token). -/
inductive LoginResult where
  | failure (resp : ApiResponse)
  | success (userId name email : List Char) (token : TokenBlob)
deriving DecidableEq, Repr

/-- POST /api/login handler (after express-validator), given the bcrypt
comparison `cmp candidate storedHash`: `User.findOne(\x7b email:
email.toLowerCase() \x7d)`, then `comparePassword`; both failure paths send
401 with the same message; on success a token is issued (the catch around a
missing JWT secret sends 500 "Login failed"). -/
def loginHandler (users : List StoredUser) (cmp : List Char → List Char → Bool)
    (jwtSecretEnv : Option (List Char)) (nowSec : Nat)
    (email password : List Char) : LoginResult :=
  match users.find? (fun u => decide (u.email = jsToLower email)) with
  | none => .failure ⟨401, false, "Invalid email or password"⟩
  | some user =>
    if !cmp password user.password then
      .failure ⟨401, false, "Invalid email or password"⟩
    else
      match generateToken user._id user.email jwtSecretEnv nowSec with
      | .error _ => .failure ⟨500, false, "Login failed"⟩
      | .ok token => .success user._id user.name user.email token

/-! Post creation: POST /api/posts (routes/posts.ts lines 158-277). -/

/-- Outcome of the create-post handler: an error envelope, or the created
document together with the store afterwards. -/
inductive CreatePostResult where
  | failure (resp : ApiResponse)
  | created (post : StoredPost) (posts : List StoredPost)
deriving DecidableEq, Repr

/-- The image handling of routes/posts.ts lines 188-193: `imageUrl` is set to
`/uploads/<filename>` exactly when `type === 'HAVE' && req.file`, otherwise
it stays undefined. -/
def postImageUrl (ptype : List Char) (file : Option (List Char)) : Option (List Char) :=
  if decide (ptype = "HAVE".data) && file.isSome then
    some ("/uploads/".data ++ file.getD [])
  else none

/-- POST /api/posts handler after `authenticateToken` and multer
(`file` is `req.file`'s stored filename, if an image was uploaded):
express-validator requires `type` in \x7b NEED, HAVE \x7d and `content` of
length 1..1000; the author is re-fetched (404 when missing); `imageUrl` is
set to `/uploads/<filename>` only when `type === 'HAVE' && req.file`
(routes/posts.ts lines 188-193); the post is saved with trimmed content. -/
def createPostHandler (posts : List StoredPost) (users : List StoredUser)
    (authUserId ptype content : List Char) (file : Option (List Char))
    (newId : List Char) (now : Nat) : CreatePostResult :=
  if !((decide (ptype = "NEED".data) || decide (ptype = "HAVE".data)) &&
       decide (1 ≤ content.length) && decide (content.length ≤ 1000)) then
    .failure ⟨400, false, "Validation failed"⟩
  else
    match users.find? (fun u => decide (u._id = authUserId)) with
    | none => .failure ⟨404, false, "User not found"⟩
    | some _user =>
      .created
        ⟨newId, if ptype = "HAVE".data then .HAVE else .NEED,
          jsTrim content, authUserId, postImageUrl ptype file, now⟩
        (posts ++
          [⟨newId, if ptype = "HAVE".data then .HAVE else .NEED,
            jsTrim content, authUserId, postImageUrl ptype file, now⟩])

/-! Concrete demonstration data used by witness instantiations. -/

/-- A demo JWT secret. -/
def demoSecret : List Char := "s3cret".data

/-- Demo token claims for user u1. -/
def demoClaims : JwtClaims := ⟨"u1".data, "a@x.com".data⟩

/-- A token-string decoding under which every token string decodes to a valid
signed token for `demoClaims` under `demoSecret`, expiring at second 1000. -/
def demoTokenEnv : List Char → TokenBlob :=
  fun _ => .signed demoClaims 1000 (macSign demoSecret demoClaims 1000)

/-- A decoding to an expired token (exp = 10) with a valid signature. -/
def demoExpiredEnv : List Char → TokenBlob :=
  fun _ => .signed demoClaims 10 (macSign demoSecret demoClaims 10)

/-- A decoding to an unexpired token signed with a different secret
(a corrupted signature). -/
def demoBadSigEnv : List Char → TokenBlob :=
  fun _ => .signed demoClaims 1000 (macSign "other".data demoClaims 1000)

/-- A decoding to an undecodable token blob. -/
def demoMalformedEnv : List Char → TokenBlob :=
  fun _ => .malformed "xx".data

/-- The stored user the demo claims refer to. -/
def demoUser : StoredUser := ⟨"u1".data, "Ann".data, "a@x.com".data, "hashed".data⟩

/-- A demo post authored by u1 (with a 24-hex author id variant used where
hydration is exercised). -/
def demoPost : StoredPost :=
  ⟨"p1".data, .NEED, "need office space".data, "u1".data, none, 5⟩

/-- A demo user with a well-formed ObjectId as its id. -/
def demoHexUser : StoredUser :=
  ⟨"0123456789abcdef01234567".data, "Ann".data, "a@x.com".data, "hashed".data⟩

/-- A demo post whose author id is `demoHexUser`. -/
def demoHexPost : StoredPost :=
  ⟨"p1".data, .NEED, "need office space".data, "0123456789abcdef01234567".data, none, 5⟩

/-! Helper lemmas. -/

theorem isRegexSpecial_backslash : isRegexSpecial '\\' = true := by decide

theorem literalOfPattern_escapeRegexChars (s : List Char) :
    literalOfPattern (escapeRegexChars s) = some s := by
  induction s with
  | nil => rfl
  | cons c rest ih =>
    by_cases hc : isRegexSpecial c = true
    · rw [escapeRegexChars, if_pos hc, literalOfPattern, if_pos rfl, literalOfEscapeTail, ih]
      rfl
    · have hcb : c ≠ '\\' := by
        intro h
        rw [h, isRegexSpecial_backslash] at hc
        exact hc rfl
      rw [escapeRegexChars, if_neg hc, literalOfPattern, if_neg hcb, if_neg hc, ih]
      rfl

theorem mem_findPosts {p : StoredPost} {posts : List StoredPost} {mq : MongoQuery}
    (h : p ∈ findPosts posts mq) : p ∈ posts ∧ mongoMatch mq p = true := by
  rw [findPosts] at h
  exact List.mem_filter.mp
    ((List.perm_insertionSort createdAtDesc (posts.filter (mongoMatch mq))).mem_iff.mp h)

/-! Claim theorems. -/

/-- C6: for every filter (any combination of userId, type and free-text
constraints, including the empty filter) and every stored set of posts, the
feed fetch returns exactly the posts matching the built filter, sorted by
creation timestamp in descending order (newest first). -/
theorem find_returns_matches_sorted_desc (posts : List StoredPost) (fq : FeedQuery) :
    List.Sorted createdAtDesc (findPosts posts (buildFeedQuery fq)) ∧
    (findPosts posts (buildFeedQuery fq)).Perm
      (posts.filter (mongoMatch (buildFeedQuery fq))) :=
  ⟨List.sorted_insertionSort createdAtDesc _, List.perm_insertionSort _ _⟩

/-- C7: escaping makes the free-text query a pure literal: evaluating the
case-insensitive regex built from any query string never fails (`some`) and
holds exactly when the query text occurs in the content as a literal
case-insensitive substring; and the feed handler's built filter carries
exactly the escaped trimmed query. -/
theorem free_text_query_literal_and_safe (qs content : List Char) :
    regexTestCI (escapeRegexChars qs) content
      = some (containsSub (jsToLower qs) (jsToLower content)) ∧
    ((jsTrim qs).isEmpty = false →
      (buildFeedQuery ⟨none, some qs, none⟩).contentRegexCI
        = some (escapeRegexChars (jsTrim qs))) := by
  constructor
  · rw [regexTestCI, literalOfPattern_escapeRegexChars]
    rfl
  · intro h
    simp [buildFeedQuery, h]

/-- Witness for C7 at the metacharacter queries of the spec: `a.*b` matches
only its literal occurrence and `(x` never fails. -/
theorem free_text_query_literal_and_safe_witness :
    (regexTestCI (escapeRegexChars "a.*b".data) "xA.*Bz".data = some true ∧
      regexTestCI (escapeRegexChars "a.*b".data) "aXXb".data = some false ∧
      regexTestCI (escapeRegexChars "(x".data) "y(x".data = some true) ∧
    (jsTrim "a.*b".data).isEmpty = false ∧
    (buildFeedQuery ⟨none, some "a.*b".data, none⟩).contentRegexCI
      = some (escapeRegexChars (jsTrim "a.*b".data)) := by
  refine ⟨⟨?_, ?_, ?_⟩, by decide, (free_text_query_literal_and_safe "a.*b".data []).2 (by decide)⟩
  · rw [(free_text_query_literal_and_safe "a.*b".data "xA.*Bz".data).1]
    decide
  · rw [(free_text_query_literal_and_safe "a.*b".data "aXXb".data).1]
    decide
  · rw [(free_text_query_literal_and_safe "(x".data "y(x".data).1]
    decide

/-- C1: the delete endpoint sends 404 when no post has the id; sends 403 and
leaves the store untouched when the post's author differs from the requester;
and when the requester is the author it succeeds with 200 and no post with
that id appears in any subsequent find result. -/
theorem delete_post_contract (posts : List StoredPost) (id uid : List Char) :
    (postFindById posts id = none →
      deletePostHandler posts id uid = ⟨⟨404, false, "Post not found"⟩, posts⟩) ∧
    (∀ post, postFindById posts id = some post → post.userId ≠ uid →
      deletePostHandler posts id uid
        = ⟨⟨403, false, "You can only delete your own posts"⟩, posts⟩) ∧
    (∀ post, postFindById posts id = some post → post.userId = uid →
      (deletePostHandler posts id uid).response = ⟨200, true, "Post deleted successfully"⟩ ∧
      ∀ mq p, p ∈ findPosts (deletePostHandler posts id uid).posts mq → p._id ≠ id) := by
  refine ⟨?_, ?_, ?_⟩
  · intro h
    simp [deletePostHandler, h]
  · intro post h hne
    simp [deletePostHandler, h, hne]
  · intro post h heq
    have hd : deletePostHandler posts id uid
        = ⟨⟨200, true, "Post deleted successfully"⟩,
            posts.filter (fun p => decide (p._id ≠ id))⟩ := by
      simp [deletePostHandler, h, heq]
    rw [hd]
    refine ⟨rfl, ?_⟩
    intro mq p hp
    exact of_decide_eq_true (List.mem_filter.mp (mem_findPosts hp).1).2

/-- Witness for C1: deleting the demo post as a non-author is refused with
403 and the store is unchanged. -/
theorem delete_post_contract_witness :
    deletePostHandler [demoPost] "p1".data "u2".data
      = ⟨⟨403, false, "You can only delete your own posts"⟩, [demoPost]⟩ :=
  (delete_post_contract [demoPost] "p1".data "u2".data).2.1 demoPost (by decide) (by decide)

/-- C5: both login failure causes — unknown email, and known email with a
failing password comparison — produce the same response: 401 with the uniform
message, so the two causes are indistinguishable from the response. -/
theorem login_failure_uniform (users : List StoredUser)
    (cmp : List Char → List Char → Bool) (env : Option (List Char)) (now : Nat)
    (e1 p1 e2 p2 : List Char) (u : StoredUser)
    (h1 : users.find? (fun v => decide (v.email = jsToLower e1)) = none)
    (h2 : users.find? (fun v => decide (v.email = jsToLower e2)) = some u)
    (h3 : cmp p2 u.password = false) :
    loginHandler users cmp env now e1 p1
        = .failure ⟨401, false, "Invalid email or password"⟩ ∧
    loginHandler users cmp env now e2 p2 = loginHandler users cmp env now e1 p1 := by
  have hA : loginHandler users cmp env now e1 p1
      = .failure ⟨401, false, "Invalid email or password"⟩ := by
    simp [loginHandler, h1]
  have hB : loginHandler users cmp env now e2 p2
      = .failure ⟨401, false, "Invalid email or password"⟩ := by
    simp [loginHandler, h2, h3]
  exact ⟨hA, hB.trans hA.symm⟩

/-- Witness for C5: with the demo user stored, logging in with an unknown
email and logging in with the right email but a failing password comparison
produce identical responses. -/
theorem login_failure_uniform_witness :
    loginHandler [demoUser] (fun _ _ => false) (some demoSecret) 0 "b@x.com".data "pw".data
        = .failure ⟨401, false, "Invalid email or password"⟩ ∧
    loginHandler [demoUser] (fun _ _ => false) (some demoSecret) 0 "a@x.com".data "pw".data
        = loginHandler [demoUser] (fun _ _ => false) (some demoSecret) 0 "b@x.com".data "pw".data :=
  login_failure_uniform [demoUser] (fun _ _ => false) (some demoSecret) 0
    "b@x.com".data "pw".data "a@x.com".data "pw".data demoUser
    (by decide) (by decide) rfl

/-- C9: a token issued by generateToken for a user verifies successfully at
any time before its expiry (issue time + 604800 s), and the verified claims
carry exactly that user's id (and email). -/
theorem verify_issue_roundtrip (uid em secret : List Char) (nowIss nowVer : Nat)
    (tok : TokenBlob) (hms : secret ≠ [])
    (hgen : generateToken uid em (some secret) nowIss = .ok tok)
    (hfresh : nowVer < nowIss + 604800) :
    jwtVerify tok secret nowVer = .ok ⟨uid, em⟩ := by
  have hne : secret.isEmpty = false := by
    cases secret with
    | nil => exact absurd rfl hms
    | cons a l => rfl
  have hE : tok = .signed ⟨uid, em⟩ (nowIss + 604800)
      (macSign secret ⟨uid, em⟩ (nowIss + 604800)) := by
    simp [generateToken, jsTruthy, hne] at hgen
    exact hgen.symm
  subst hE
  have hlt : ¬(nowIss + 604800 ≤ nowVer) := Nat.not_le.mpr hfresh
  simp [jwtVerify, hlt]

/-- Witness for C9: a token issued at second 0 for u1 verifies at second 100
and yields u1's id. -/
theorem verify_issue_roundtrip_witness :
    jwtVerify (.signed ⟨"u1".data, "a@x.com".data⟩ 604800
        (macSign "s3cret".data ⟨"u1".data, "a@x.com".data⟩ 604800))
      "s3cret".data 100 = .ok ⟨"u1".data, "a@x.com".data⟩ :=
  verify_issue_roundtrip "u1".data "a@x.com".data "s3cret".data 0 100
    (.signed ⟨"u1".data, "a@x.com".data⟩ 604800
      (macSign "s3cret".data ⟨"u1".data, "a@x.com".data⟩ 604800))
    (by decide) rfl (by decide)

/-- C2 counterexample: a request whose Authorization header uses the Basic
scheme, when the second space-separated component decodes to a valid token,
is not rejected by the backend middleware: verification is invoked and the
request is authenticated (`next()` is called with `req.user` attached). -/
theorem basic_scheme_not_rejected :
    authenticateToken demoTokenEnv (some "Basic abc".data) (some demoSecret) [demoUser] 0
      = ⟨none, some ("u1".data, "a@x.com".data), true⟩ := by decide

/-- C2 amended: the backend middleware rejects with 401 and without invoking
verification exactly the requests whose header yields no token component
(absent/empty header, or no nonempty second space-separated part) — it never
inspects the scheme word; the serverless middleware does reject an absent
header or any non-`Bearer ` scheme without invoking verification. -/
theorem missing_token_rejected_without_verify (tokenEnv : List Char → TokenBlob)
    (env : Option (List Char)) (users : List StoredUser) (now : Nat)
    (h : Option (List Char)) (he : extractToken h = none) :
    authenticateToken tokenEnv h env users now
        = ⟨some ⟨401, false, "Access token required"⟩, none, false⟩ ∧
    authenticateRequest tokenEnv none env now = ⟨false, none, false⟩ ∧
    (∀ hdr, "Bearer ".data.isPrefixOf hdr = false →
      authenticateRequest tokenEnv (some hdr) env now = ⟨false, none, false⟩) := by
  refine ⟨?_, rfl, ?_⟩
  · simp [authenticateToken, he]
  · intro hdr hp
    simp [authenticateRequest, hp]

/-- Witness for the amended C2: an absent header is rejected without
verification by both middlewares, and the serverless middleware also rejects
the Basic scheme without verification. -/
theorem missing_token_rejected_without_verify_witness :
    (authenticateToken demoTokenEnv none (some demoSecret) [demoUser] 0
        = ⟨some ⟨401, false, "Access token required"⟩, none, false⟩ ∧
      authenticateRequest demoTokenEnv none (some demoSecret) 0 = ⟨false, none, false⟩ ∧
      (∀ hdr, "Bearer ".data.isPrefixOf hdr = false →
        authenticateRequest demoTokenEnv (some hdr) (some demoSecret) 0
          = ⟨false, none, false⟩)) ∧
    authenticateRequest demoTokenEnv (some "Basic abc".data) (some demoSecret) 0
      = ⟨false, none, false⟩ := by
  have h := missing_token_rejected_without_verify demoTokenEnv (some demoSecret)
    [demoUser] 0 none rfl
  exact ⟨h, h.2.2 "Basic abc".data (by decide)⟩

/-- C3: the backend middleware's catch block tests
`instanceof jwt.JsonWebTokenError` before `instanceof jwt.TokenExpiredError`,
and in the jsonwebtoken library TokenExpiredError is a subclass of
JsonWebTokenError — so although jwt.verify distinguishes the three failure
kinds, an expired token, a corrupted-signature token and a malformed token
all receive the identical response 401 "Invalid token":
the "Token expired" branch is unreachable and the Expired outcome is not
observably distinct. -/
theorem expired_response_not_distinct :
    jwtVerify (demoExpiredEnv "t".data) demoSecret 10 = .error .expired ∧
    jwtVerify (demoBadSigEnv "t".data) demoSecret 10 = .error .invalidSignature ∧
    jwtVerify (demoMalformedEnv "t".data) demoSecret 10 = .error .malformed ∧
    (authenticateToken demoExpiredEnv (some "Bearer t".data)
        (some demoSecret) [demoUser] 10).response = some ⟨401, false, "Invalid token"⟩ ∧
    (authenticateToken demoBadSigEnv (some "Bearer t".data)
        (some demoSecret) [demoUser] 10).response = some ⟨401, false, "Invalid token"⟩ ∧
    (authenticateToken demoMalformedEnv (some "Bearer t".data)
        (some demoSecret) [demoUser] 10).response = some ⟨401, false, "Invalid token"⟩ := by
  exact ⟨rfl, rfl, rfl, by decide, by decide, by decide⟩

/-- C4 counterexample: the serverless authenticateRequest attaches the
identity decoded from any valid token and reports success without consulting
any user store at all, so a valid token for a subject absent from the
Credential Store is accepted rather than rejected with 401. -/
theorem serverless_accepts_deleted_user :
    authenticateRequest demoTokenEnv (some "Bearer t".data) (some demoSecret) 0
      = ⟨true, some demoClaims, true⟩ := by decide

/-- C4 amended: the standalone backend middleware re-resolves the verified
subject via the user store and, when no user matches, responds 401 without
attaching an identity; the serverless authenticateRequest instead attaches
`req.user` straight from the decoded claims of any verifying token, with no
store lookup. -/
theorem verified_but_deleted_user_rejected (tokenEnv : List Char → TokenBlob)
    (h : Option (List Char)) (env : Option (List Char)) (users : List StoredUser)
    (now : Nat) (tokStr : List Char) (claims : JwtClaims)
    (h1 : extractToken h = some tokStr)
    (h2 : jsTruthy env = true)
    (h3 : jwtVerify (tokenEnv tokStr) (env.getD []) now = .ok claims)
    (h4 : users.find? (fun u => decide (u._id = claims.userId)) = none) :
    authenticateToken tokenEnv h env users now
        = ⟨some ⟨401, false, "User not found"⟩, none, true⟩ ∧
    (∀ tokenEnv2 hdr env2 now2 claims2,
      "Bearer ".data.isPrefixOf hdr = true →
      verifyTokenServerless tokenEnv2 env2 (((jsSplitSpace hdr).get? 1).getD []) now2
        = some claims2 →
      authenticateRequest tokenEnv2 (some hdr) env2 now2 = ⟨true, some claims2, true⟩) := by
  constructor
  · simp [authenticateToken, h1, h2, h3, h4]
  · intro tokenEnv2 hdr env2 now2 claims2 hb hv
    simp only [List.get?_eq_getElem?] at hv
    simp [authenticateRequest, hb, hv]

/-- Witness for the amended C4: with an empty user store, a request carrying
a valid token is rejected 401 "User not found" with no identity attached by
the backend middleware, while the serverless middleware accepts it and
attaches the claims. -/
theorem verified_but_deleted_user_rejected_witness :
    authenticateToken demoTokenEnv (some "Bearer t".data) (some demoSecret) [] 0
        = ⟨some ⟨401, false, "User not found"⟩, none, true⟩ ∧
    authenticateRequest demoTokenEnv (some "Bearer t".data) (some demoSecret) 0
        = ⟨true, some demoClaims, true⟩ := by
  have h := verified_but_deleted_user_rejected demoTokenEnv (some "Bearer t".data)
    (some demoSecret) [] 0 "t".data demoClaims rfl (by decide) rfl rfl
  exact ⟨h.1, h.2 demoTokenEnv "Bearer t".data (some demoSecret) 0 demoClaims
    (by decide) rfl⟩

/-- C10: whenever post creation succeeds, a NEED post carries no image
reference even if a file accompanied the request, and an image reference is
present only when the type is HAVE and a file was uploaded. -/
theorem need_post_never_has_image (posts : List StoredPost) (users : List StoredUser)
    (authUserId ptype content : List Char) (file : Option (List Char))
    (newId : List Char) (now : Nat) (p : StoredPost) (st : List StoredPost)
    (h : createPostHandler posts users authUserId ptype content file newId now
      = .created p st) :
    (ptype = "NEED".data → p.imageUrl = none) ∧
    (p.imageUrl.isSome = true → ptype = "HAVE".data ∧ file.isSome = true) := by
  rw [createPostHandler] at h
  split at h
  · exact absurd h (by simp)
  · split at h
    · exact absurd h (by simp)
    · have hp : p = ⟨newId, if ptype = "HAVE".data then .HAVE else .NEED,
          jsTrim content, authUserId, postImageUrl ptype file, now⟩ :=
        (CreatePostResult.created.injEq _ _ _ _).mp h |>.1.symm
      subst hp
      constructor
      · intro hN
        have : ptype ≠ "HAVE".data := by
          rw [hN]
          decide
        simp [postImageUrl, this]
      · intro hS
        rw [postImageUrl] at hS
        by_cases hc : (decide (ptype = "HAVE".data) && file.isSome) = true
        · exact ⟨of_decide_eq_true (Bool.and_elim_left hc), Bool.and_elim_right hc⟩
        · rw [if_neg hc] at hS
          exact absurd hS (by simp)

/-- Witness for C10: creating a NEED post as the demo user with an uploaded
file succeeds and stores no imageUrl. -/
theorem need_post_never_has_image_witness :
    createPostHandler [] [demoUser] "u1".data "NEED".data "hello".data
        (some "f.png".data) "p9".data 7
      = .created ⟨"p9".data, .NEED, "hello".data, "u1".data, none, 7⟩
          [⟨"p9".data, .NEED, "hello".data, "u1".data, none, 7⟩] ∧
    (⟨"p9".data, .NEED, "hello".data, "u1".data, none, 7⟩ : StoredPost).imageUrl = none := by
  have hc : createPostHandler [] [demoUser] "u1".data "NEED".data "hello".data
      (some "f.png".data) "p9".data 7
      = .created ⟨"p9".data, .NEED, "hello".data, "u1".data, none, 7⟩
          [⟨"p9".data, .NEED, "hello".data, "u1".data, none, 7⟩] := by decide
  exact ⟨hc, (need_post_never_has_image [] [demoUser] "u1".data "NEED".data "hello".data
    (some "f.png".data) "p9".data 7 _ _ hc).1 rfl⟩

theorem isEmpty_false_of_ne_nil {α : Type} {l : List α} (h : l ≠ []) :
    l.isEmpty = false := by
  cases l with
  | nil => exact absurd rfl h
  | cons a t => rfl

theorem lookupName_eq_none (l : List StoredUser) (k : List Char)
    (h : ∀ u ∈ l, u._id ≠ k) :
    lookupName (l.map (fun u => (u._id, u.name))) k = none := by
  rw [lookupName]
  have hf : (l.map (fun u => (u._id, u.name))).find? (fun e => decide (e.1 = k))
      = none := by
    rw [List.find?_eq_none]
    intro e he
    obtain ⟨u, hu, rfl⟩ := List.mem_map.mp he
    simp [h u hu]
  rw [hf]
  rfl

theorem lookupName_exists (l : List StoredUser) (k : List Char)
    (h : ∃ u ∈ l, u._id = k) :
    ∃ u, u ∈ l ∧ u._id = k ∧
      lookupName (l.map (fun u => (u._id, u.name))) k = some u.name := by
  induction l with
  | nil =>
    obtain ⟨u, hu, _⟩ := h
    exact absurd hu (List.not_mem_nil u)
  | cons v t ih =>
    by_cases hv : v._id = k
    · refine ⟨v, List.mem_cons_self v t, hv, ?_⟩
      simp [lookupName, List.find?_cons, hv]
    · have h' : ∃ u ∈ t, u._id = k := by
        obtain ⟨u, hu, hk⟩ := h
        rcases List.mem_cons.mp hu with he | ht
        · subst he
          exact absurd hk hv
        · exact ⟨u, ht, hk⟩
      obtain ⟨u, hu, hk, hl⟩ := ih h'
      refine ⟨u, List.mem_cons_of_mem v hu, hk, ?_⟩
      rw [List.map_cons, lookupName, List.find?_cons_of_neg]
      · rw [lookupName] at hl
        exact hl
      · simp [hv]

theorem mem_fetchedUsers {u : StoredUser} {results : List StoredPost}
    {users : List StoredUser} {f : Bool} (h : u ∈ fetchedUsers results users f) :
    u ∈ users := by
  cases f with
  | true => simp [fetchedUsers] at h
  | false =>
    rw [fetchedUsers, if_neg (by simp)] at h
    exact (List.mem_filter.mp h).1

/-- C8: in the batch hydration path (`userId` not truthy) the ids sent to the
batch user lookup are all well-formed ObjectIds (malformed ones are skipped,
not errored); the handler returns one shaped record per found post whatever
the batch lookup did (a failed lookup degrades instead of failing the
request); and each record's `userName` is the resolved author's display name
when a stored user carries the post's author id (names are nonempty by the
User schema and stored ids are well-formed ObjectIds), and the literal
fallback "Unknown User" when the lookup failed or no stored user matches. -/
theorem hydration_contract (posts : List StoredPost) (users : List StoredUser)
    (fq : FeedQuery) (userFetchFails : Bool)
    (hq : jsTruthy fq.userId = false)
    (hnames : ∀ u ∈ users, u.name ≠ [])
    (hids : ∀ u ∈ users, isValidObjectId u._id = true) :
    (∀ id ∈ batchUserIds (findPosts posts (buildFeedQuery fq)),
        isValidObjectId id = true) ∧
    (getPostsHandler posts users fq userFetchFails).map (fun fp => fp.id)
        = (findPosts posts (buildFeedQuery fq)).map (fun p => p._id) ∧
    (∀ fp ∈ getPostsHandler posts users fq userFetchFails,
      (userFetchFails = false → (∃ u ∈ users, u._id = fp.userId) →
        ∃ u ∈ users, u._id = fp.userId ∧ fp.userName = u.name) ∧
      ((userFetchFails = true ∨ ∀ u ∈ users, u._id ≠ fp.userId) →
        fp.userName = "Unknown User".data)) := by
  have hout : getPostsHandler posts users fq userFetchFails
      = hydrateBatch (findPosts posts (buildFeedQuery fq)) users userFetchFails := by
    simp [getPostsHandler, hq]
  refine ⟨?_, ?_, ?_⟩
  · intro id hid
    rw [batchUserIds] at hid
    exact (List.mem_filter.mp (List.mem_dedup.mp hid)).2
  · rw [hout, hydrateBatch, List.map_map]
    rfl
  · intro fp hfp
    rw [hout, hydrateBatch] at hfp
    obtain ⟨p, hp, rfl⟩ := List.mem_map.mp hfp
    constructor
    · intro hff hex
      subst hff
      dsimp only at hex ⊢
      obtain ⟨u, hu, hk⟩ := hex
      have hbatch : p.userId ∈ batchUserIds (findPosts posts (buildFeedQuery fq)) := by
        rw [batchUserIds]
        apply List.mem_dedup.mpr
        apply List.mem_filter.mpr
        refine ⟨List.mem_map.mpr ⟨p, hp, rfl⟩, ?_⟩
        rw [← hk]
        exact hids u hu
      have huf : u ∈ fetchedUsers (findPosts posts (buildFeedQuery fq)) users false := by
        rw [fetchedUsers, if_neg (by simp)]
        exact List.mem_filter.mpr ⟨hu, decide_eq_true (hk ▸ hbatch)⟩
      obtain ⟨v, hv, hvk, hlook⟩ :=
        lookupName_exists (fetchedUsers (findPosts posts (buildFeedQuery fq)) users false)
          p.userId ⟨u, huf, hk⟩
      have hvu : v ∈ users := mem_fetchedUsers hv
      refine ⟨v, hvu, hvk, ?_⟩
      show jsOrString
          (lookupName
            ((fetchedUsers (findPosts posts (buildFeedQuery fq)) users false).map
              (fun u => (u._id, u.name)))
            p.userId)
          "Unknown User".data = v.name
      rw [hlook, jsOrString, isEmpty_false_of_ne_nil (hnames v hvu)]
      rfl
    · intro hun
      dsimp only at hun ⊢
      rcases hun with htrue | hall
      · subst htrue
        rfl
      · have hnone :
            lookupName
              ((fetchedUsers (findPosts posts (buildFeedQuery fq)) users
                userFetchFails).map (fun u => (u._id, u.name)))
              p.userId = none :=
          lookupName_eq_none _ _ (fun u hu => hall u (mem_fetchedUsers hu))
        show jsOrString
            (lookupName
              ((fetchedUsers (findPosts posts (buildFeedQuery fq)) users
                userFetchFails).map (fun u => (u._id, u.name)))
              p.userId)
            "Unknown User".data = "Unknown User".data
        rw [hnone]
        rfl

/-- Witness for C8: with one post whose author id is a 24-hex ObjectId and
the matching stored user, the batch path resolves the display name (and all
three conclusions hold at these concrete inputs). -/
theorem hydration_contract_witness :
    (∀ id ∈ batchUserIds (findPosts [demoHexPost] (buildFeedQuery ⟨none, none, none⟩)),
        isValidObjectId id = true) ∧
    (getPostsHandler [demoHexPost] [demoHexUser] ⟨none, none, none⟩ false).map
        (fun fp => fp.id)
        = (findPosts [demoHexPost] (buildFeedQuery ⟨none, none, none⟩)).map
            (fun p => p._id) ∧
    (∀ fp ∈ getPostsHandler [demoHexPost] [demoHexUser] ⟨none, none, none⟩ false,
      (false = false → (∃ u ∈ [demoHexUser], u._id = fp.userId) →
        ∃ u ∈ [demoHexUser], u._id = fp.userId ∧ fp.userName = u.name) ∧
      ((false = true ∨ ∀ u ∈ [demoHexUser], u._id ≠ fp.userId) →
        fp.userName = "Unknown User".data)) :=
  hydration_contract [demoHexPost] [demoHexUser] ⟨none, none, none⟩ false rfl
    (by decide) (by decide)
